import Mathlib

/-
  Shallow embedding of the sqUadow/keyence_metadata repository.

  Source files embedded:
  - parse_metadata_with_factor_conversion.py : decode_double, parse_metadata,
    _extract_value, format_metadata (the decoding loop), read_tiff_content
    (the encoding-resolution loop).
  - decode_calibration_scale.py : decode_double (integer-input variant).

  Strings are modelled as lists of characters.  The specific regular
  expressions used by the source (all with re.DOTALL) are embedded by
  direct leftmost-search functions: re.search tries each start position
  from the left, and at a given start position each of the source's
  patterns matches deterministically (literal pieces, `[^>]*` and `[^<]*`
  runs that stop at the first excluded character, and lazy `(.*?)` runs
  that stop at the first occurrence of the literal that follows them).
-/

set_option maxRecDepth 40000

namespace Keyence

/-- Characters treated as whitespace by Python's str.strip and int(),
restricted to the ASCII whitespace characters. -/
def isPySpace (c : Char) : Bool :=
  c = ' ' || c = '\t' || c = '\n' || c = '\r' || c = Char.ofNat 11 || c = Char.ofNat 12

/-- Python str.strip(): remove leading and trailing whitespace. -/
def pyStrip (l : List Char) : List Char :=
  ((l.dropWhile isPySpace).reverse.dropWhile isPySpace).reverse

/-- Split a string at the first occurrence of a literal pattern:
returns (text before the occurrence, text after the occurrence).
This is the semantics of a lazy group `(.*?)pat` under re.DOTALL. -/
def splitAtFirst (pat : List Char) : List Char → Option (List Char × List Char)
  | [] => if pat = [] then some ([], []) else none
  | c :: rest =>
    if pat.isPrefixOf (c :: rest) then some ([], (c :: rest).drop pat.length)
    else
      match splitAtFirst pat rest with
      | some (pre, post) => some (c :: pre, post)
      | none => none

/-- re.search over an anchored attempt: try the attempt at each start
position from the left and return the first success. -/
def reSearch {α : Type} (att : List Char → Option α) : List Char → Option α
  | [] => att []
  | c :: rest =>
    match att (c :: rest) with
    | some v => some v
    | none => reSearch att rest

/-- Does a literal pattern occur anywhere in the string? -/
def containsSub (pat : List Char) : List Char → Bool
  | [] => decide (pat = [])
  | c :: rest => pat.isPrefixOf (c :: rest) || containsSub pat rest

/-- The closing tag literal of the source's patterns. -/
def closeTag (tag : List Char) : List Char := '<' :: '/' :: (tag ++ ['>'])

/-- The opening-marker literal of the source's patterns: every opening-tag
pattern in the source is written with a literal space after the tag name. -/
def openMarker (tag : List Char) : List Char := '<' :: (tag ++ [' '])

/-- Anchored match of the opening pattern of a tag with attributes, the
source's raw-string piece written as an open angle bracket, the tag name,
a space and then non-close characters up to the closing angle bracket.
Returns the remainder after that closing bracket. -/
def openTagAt (tag : List Char) (s : List Char) : Option (List Char) :=
  if (openMarker tag).isPrefixOf s then
    match (s.drop (openMarker tag).length).dropWhile (fun c => !(c = '>')) with
    | [] => none
    | _ :: r2 => some r2
  else none

/-- Anchored match of the data-block pattern, the source's raw string
consisting of the literal data open tag, a lazy capture, and the literal
data close tag.  Returns the captured body. -/
def dataAt (s : List Char) : Option (List Char) :=
  if ("<Data>".data).isPrefixOf s then
    (splitAtFirst ("</Data>".data) (s.drop ("<Data>".data).length)).map Prod.fst
  else none

/-- Anchored match of the section pattern: opening tag with attributes,
lazy capture, closing tag.  Used for the Image, Lens, and Shooting
sections and for the Parameter wrapper.  Returns the captured body. -/
def sectionAt (tag : List Char) (s : List Char) : Option (List Char) :=
  match openTagAt tag s with
  | none => none
  | some r2 => (splitAtFirst (closeTag tag) r2).map Prod.fst

/-- Anchored match of the direct-value pattern: opening tag with
attributes, a capture of non-open-bracket characters, closing tag. -/
def directAt (tag : List Char) (s : List Char) : Option (List Char) :=
  match openTagAt tag s with
  | none => none
  | some r2 =>
    let cap := r2.takeWhile (fun c => !(c = '<'))
    let rem := r2.dropWhile (fun c => !(c = '<'))
    if (closeTag tag).isPrefixOf rem then some cap else none

/-- Anchored match of the inner piece of the nested-pair pattern: sub-tag
opening with attributes, capture of non-open-bracket characters, sub-tag
closing.  Returns the capture and the remainder after the closing tag. -/
def pairInnerAt (sub : List Char) (r : List Char) : Option (List Char × List Char) :=
  match openTagAt sub r with
  | none => none
  | some r2 =>
    let cap := r2.takeWhile (fun c => !(c = '<'))
    let rem := r2.dropWhile (fun c => !(c = '<'))
    if (closeTag sub).isPrefixOf rem then some (cap, rem.drop (closeTag sub).length)
    else none

/-- Anchored match of the nested-pair pattern: outer opening tag, lazy
gap, sub-tag value, lazy gap, outer closing tag.  The lazy gaps advance
to the next feasible position exactly as the backtracking engine does. -/
def pairAt (tag sub : List Char) (s : List Char) : Option (List Char) :=
  match openTagAt tag s with
  | none => none
  | some r2 =>
    reSearch (fun r =>
      match pairInnerAt sub r with
      | none => none
      | some (cap, rest) =>
        match splitAtFirst (closeTag tag) rest with
        | none => none
        | some _ => some cap) r2

/-- re.search of the data-block pattern over the whole content. -/
def reSearchData (s : List Char) : Option (List Char) := reSearch dataAt s

/-- re.search of a section (or wrapper) pattern. -/
def reSearchSection (tag : List Char) (s : List Char) : Option (List Char) :=
  reSearch (sectionAt tag) s

/-- re.search of the direct-value pattern. -/
def reSearchDirect (tag : List Char) (s : List Char) : Option (List Char) :=
  reSearch (directAt tag) s

/-- re.search of the nested-pair pattern. -/
def reSearchPair (tag sub : List Char) (s : List Char) : Option (List Char) :=
  reSearch (pairAt tag sub) s

/-- Outcome of a call to the Python decoder: a successfully unpacked
double (identified by its 64-bit pattern), a ValueError or TypeError
caught by the except clause (the function returns None), or an exception
that escapes the function (struct.error from struct.pack). -/
inductive DecodeOutcome : Type where
  | ok (bits : ℕ)
  | caught
  | raises
  deriving DecidableEq

/-- Core digit parsing of Python's int(str, 10): a nonempty run of
decimal digits in which single underscores may appear between digits. -/
def digitsCore : ℕ → List Char → Option ℕ
  | acc, [] => some acc
  | acc, c :: rest =>
    if c.isDigit then digitsCore (10 * acc + (c.toNat - 48)) rest
    else if c = '_' then
      match rest with
      | d :: rest2 =>
        if d.isDigit then digitsCore (10 * acc + (d.toNat - 48)) rest2 else none
      | [] => none
    else none

/-- Python int(str): strip surrounding whitespace, allow one optional
sign, then a nonempty underscore-grouped run of decimal digits. -/
def pyIntOfChars (l : List Char) : Option ℤ :=
  let t := pyStrip l
  match t with
  | '+' :: ds =>
    match ds with
    | d :: rest => if d.isDigit then (digitsCore (d.toNat - 48) rest).map Int.ofNat else none
    | [] => none
  | '-' :: ds =>
    match ds with
    | d :: rest => if d.isDigit then (digitsCore (d.toNat - 48) rest).map (fun n => -(n : ℤ)) else none
    | [] => none
  | d :: rest => if d.isDigit then (digitsCore (d.toNat - 48) rest).map Int.ofNat else none
  | [] => none

/-- decode_double of parse_metadata_with_factor_conversion.py.  int(value)
raising ValueError is caught by the except clause; a parsed integer
outside the unsigned 64-bit range makes struct.pack raise struct.error,
which the except clause (ValueError, TypeError) does not catch, so it
escapes the function.  In range, struct.unpack returns the float whose
bit pattern is exactly the packed integer. -/
def decode_double (value : String) : DecodeOutcome :=
  match pyIntOfChars value.data with
  | none => DecodeOutcome.caught
  | some n => if 0 ≤ n ∧ n < 2 ^ 64 then DecodeOutcome.ok n.toNat else DecodeOutcome.raises

namespace DecodeCalibrationScale

/-- decode_double of decode_calibration_scale.py: the integer-input
variant with no try block; struct.pack raises outside the unsigned
64-bit range, otherwise struct.unpack yields the float whose bit
pattern is exactly the input. -/
def decode_double (n : ℤ) : DecodeOutcome :=
  if 0 ≤ n ∧ n < 2 ^ 64 then DecodeOutcome.ok n.toNat else DecodeOutcome.raises

end DecodeCalibrationScale

/-- Sign bit of an IEEE-754 binary64 bit pattern. -/
def f64Sign (bits : ℕ) : ℕ := bits / 2 ^ 63 % 2

/-- Biased exponent field of an IEEE-754 binary64 bit pattern. -/
def f64Exp (bits : ℕ) : ℕ := bits / 2 ^ 52 % 2 ^ 11

/-- Fraction field of an IEEE-754 binary64 bit pattern. -/
def f64Frac (bits : ℕ) : ℕ := bits % 2 ^ 52

/-- The three fields of a binary64 value, as held by a Python float
object produced by struct.unpack of eight bytes. -/
structure Float64Repr : Type where
  sign : ℕ
  expo : ℕ
  frac : ℕ
  deriving DecidableEq

/-- struct.unpack of the eight bytes of an unsigned 64-bit pattern:
split the pattern into the sign, exponent and fraction fields. -/
def unpackBits (bits : ℕ) : Float64Repr :=
  ⟨f64Sign bits, f64Exp bits, f64Frac bits⟩

/-- struct.pack of a float's fields back into its 64-bit pattern. -/
def packBits (r : Float64Repr) : ℕ :=
  r.sign * 2 ^ 63 + r.expo * 2 ^ 52 + r.frac

/-- Integral significand of the magnitude encoded by a finite binary64
bit pattern (the magnitude is f64Mant · 2 ^ f64Exp2). -/
def f64Mant (bits : ℕ) : ℕ :=
  if f64Exp bits = 0 then f64Frac bits else 2 ^ 52 + f64Frac bits

/-- Binary exponent of the magnitude encoded by a finite binary64 bit
pattern. -/
def f64Exp2 (bits : ℕ) : ℤ :=
  if f64Exp bits = 0 then -1074 else (f64Exp bits : ℤ) - 1075

/-- Exact rational value of a finite binary64 bit pattern (none for the
infinities and NaNs). -/
def floatValQ (bits : ℕ) : Option ℚ :=
  if f64Exp bits = 2 ^ 11 - 1 then none
  else some ((if f64Sign bits = 1 then (-1 : ℚ) else 1) * (f64Mant bits : ℚ) * (2 : ℚ) ^ (f64Exp2 bits))

/-- Round a nonnegative rational a / b (b positive) to the nearest
integer, ties to even: the rounding used both by IEEE-754 operations in
round-to-nearest mode and by CPython's fixed-precision float formatting. -/
def rheNat (a b : ℕ) : ℕ :=
  let q := a / b
  let r := a % b
  if 2 * r < b then q
  else if b < 2 * r then q + 1
  else if q % 2 = 0 then q else q + 1

/-- Represent (num / den) / 2 ^ sh as a single fraction of naturals. -/
def shiftDen (num den : ℕ) (sh : ℤ) : ℕ × ℕ :=
  if 0 ≤ sh then (num, den * 2 ^ sh.toNat) else (num * 2 ^ (-sh).toNat, den)

/-- Fuel-driven floor of the base-2 logarithm of a natural number;
structurally recursive so that it evaluates inside the kernel. -/
def log2Fuel : ℕ → ℕ → ℕ
  | 0, _ => 0
  | fuel + 1, n => if 2 ≤ n then log2Fuel fuel (n / 2) + 1 else 0

/-- Floor of the base-2 logarithm of a positive natural number. -/
def natLog2 (n : ℕ) : ℕ := log2Fuel n n

/-- Exact floor of the base-2 logarithm of num / den (both positive). -/
def floorLog2Rat (num den : ℕ) : ℤ :=
  let g : ℤ := (natLog2 num : ℤ) - (natLog2 den : ℤ)
  let ge : Bool :=
    if 0 ≤ g then decide (den * 2 ^ g.toNat ≤ num) else decide (den ≤ num * 2 ^ (-g).toNat)
  if ge then g else g - 1

/-- Round a positive rational num / den to the nearest binary64
magnitude in round-to-nearest-even mode, returning the 63 low bits of
the resulting bit pattern (exponent and fraction fields); overflow gives
the infinity pattern and underflow the (sub)normal or zero pattern. -/
def roundPosRatToMagBits (num den : ℕ) : ℕ :=
  let t := floorLog2Rat num den
  let sh := max (t - 52) (-1074)
  let p := shiftDen num den sh
  let k := rheNat p.1 p.2
  let k2 := if k = 2 ^ 53 then 2 ^ 52 else k
  let sh2 := if k = 2 ^ 53 then sh + 1 else sh
  if k2 = 0 then 0
  else if k2 < 2 ^ 52 then k2
  else
    let e := sh2 + 1075
    if 2047 ≤ e then 2047 * 2 ^ 52
    else e.toNat * 2 ^ 52 + (k2 - 2 ^ 52)

/-- IEEE-754 binary64 division of a float by 1000 (the Python expression
decoded_value / 1000), on bit patterns.  An infinity stays the same
infinity; a NaN stays a NaN (payloads are not modelled: every NaN
pattern formats as the same text); a finite magnitude is divided by 1000
exactly and rounded to the nearest representable magnitude. -/
def fpDiv1000 (bits : ℕ) : ℕ :=
  let s := f64Sign bits
  if f64Exp bits = 2 ^ 11 - 1 then bits
  else
    let M := f64Mant bits
    if M = 0 then s * 2 ^ 63
    else
      let E := f64Exp2 bits
      let p := if 0 ≤ E then (M * 2 ^ E.toNat, 1000) else (M, 1000 * 2 ^ (-E).toNat)
      s * 2 ^ 63 + roundPosRatToMagBits p.1 p.2

/-- Left-pad a decimal string with zeros to a given width. -/
def padZeros (w : ℕ) (t : String) : String :=
  String.mk (List.replicate (w - t.length) '0') ++ t

/-- CPython's fixed-precision formatting of a float with six digits
after the decimal point (an f-string with format spec .6f): the exact
binary value is rounded to six decimals with ties to even; infinities
render as inf with sign, NaNs as nan. -/
def pyFormatFixed6 (bits : ℕ) : String :=
  let s := f64Sign bits
  if f64Exp bits = 2 ^ 11 - 1 then
    if f64Frac bits = 0 then (if s = 1 then "-inf" else "inf") else "nan"
  else
    let E := f64Exp2 bits
    let p := if 0 ≤ E then (f64Mant bits * 2 ^ E.toNat * 10 ^ 6, 1)
             else (f64Mant bits * 10 ^ 6, 2 ^ (-E).toNat)
    let k := rheNat p.1 p.2
    (if s = 1 then "-" else "") ++ Nat.repr (k / 10 ^ 6) ++ "." ++ padZeros 6 (Nat.repr (k % 10 ^ 6))

/-- Shared core of _extract_value after the optional wrapper step: the
nested-pair pattern when a subtag is given, the direct pattern otherwise,
with the captured group stripped of surrounding whitespace. -/
def extractCore (data : List Char) (tag : List Char) (sub : Option (List Char)) :
    Option (List Char) :=
  match sub with
  | some sb => (reSearchPair tag sb data).map pyStrip
  | none => (reSearchDirect tag data).map pyStrip

/-- The helper _extract_value of parse_metadata_with_factor_conversion.py:
when search_in is given, first locate that wrapper block (the same
pattern shape as a section) and continue inside its captured body,
returning absence when the wrapper is absent; then apply the nested-pair
or direct extraction and strip the captured value. -/
def extract_value (data : List Char) (tag : List Char) (sub : Option (List Char))
    (searchIn : Option (List Char)) : Option (List Char) :=
  match searchIn with
  | some w =>
    match reSearchSection w data with
    | none => none
    | some inner => extractCore inner tag sub
  | none => extractCore data tag sub

/-- Direct extraction of a field, as a string. -/
def dv (data : List Char) (tag : String) : Option String :=
  (extract_value data tag.data none none).map String.mk

/-- Nested-pair extraction of a field, as a string. -/
def pv (data : List Char) (tag sub : String) : Option String :=
  (extract_value data tag.data (some sub.data) none).map String.mk

/-- Extraction of a field wrapped in a Parameter block, as a string. -/
def wv (data : List Char) (tag : String) : Option String :=
  (extract_value data tag.data none (some "Parameter".data)).map String.mk

/-- The Image section of parse_metadata: when the section pattern
matches, the nine Image fields are inserted in source order (the two
double-encoded fields Calibration and Focus get a star suffix on their
key, from extract_and_mark); when it does not, no Image key is inserted. -/
def imageFields (d : List Char) : List (String × Option String) :=
  match reSearchSection ("Image".data) d with
  | none => []
  | some img =>
    [("Comment", dv img "Comment"),
     ("OriginalImageSize_Width", pv img "OriginalImageSize" "Width"),
     ("OriginalImageSize_Height", pv img "OriginalImageSize" "Height"),
     ("SavingImageSize_Width", pv img "SavingImageSize" "Width"),
     ("SavingImageSize_Height", pv img "SavingImageSize" "Height"),
     ("DigitalZoom", dv img "DigitalZoom"),
     ("Calibration*", dv img "Calibration"),
     ("Focus*", dv img "Focus"),
     ("PatchNumber", dv img "PatchNumber")]

/-- The Lens section of parse_metadata, with NumericalAperture and
WorkingDistance double-encoded (starred keys). -/
def lensFields (d : List Char) : List (String × Option String) :=
  match reSearchSection ("Lens".data) d with
  | none => []
  | some lens =>
    [("LensName", dv lens "LensName"),
     ("Magnification", dv lens "Magnification"),
     ("NumericalAperture*", dv lens "NumericalAperture"),
     ("WorkingDistance*", dv lens "WorkingDistance"),
     ("LiquidImmersion", dv lens "LiquidImmersion"),
     ("RevolverPosition", dv lens "RevolverPosition")]

/-- The Shooting section of parse_metadata; the Binning key is filled
from the literal tag name Binnin, reproduced faithfully from the source. -/
def shootingFields (d : List Char) : List (String × Option String) :=
  match reSearchSection ("Shooting".data) d with
  | none => []
  | some sh =>
    [("StageLocationX", dv sh "StageLocationX"),
     ("StageLocationY", dv sh "StageLocationY"),
     ("StageLocationZ", dv sh "StageLocationZ"),
     ("Channel", dv sh "Channel"),
     ("Observation", dv sh "Observation"),
     ("PseudoColor", wv sh "PseudoColor"),
     ("Binning", wv sh "Binnin"),
     ("ExposureTime_Numerator", pv sh "ExposureTime" "Numerator"),
     ("ExposureTime_Denominator", pv sh "ExposureTime" "Denominator"),
     ("PixelMode", wv sh "PixelMode"),
     ("CameraGain", wv sh "CameraGain"),
     ("CameraHardwareGain", wv sh "CameraHardwareGain")]

/-- parse_metadata of parse_metadata_with_factor_conversion.py.  The
metadata dictionary is modelled as an insertion-ordered association list
(all inserted keys are distinct).  No input makes the function raise: it
is a total function, and when the data-block pattern finds no match the
result is the empty record. -/
def parse_metadata (content : String) : List (String × Option String) :=
  match reSearchData content.data with
  | none => []
  | some dataStr => imageFields dataStr ++ lensFields dataStr ++ shootingFields dataStr

/-- Result of running a piece of Python code: a value, or an exception
propagating out of it. -/
inductive PyResult (A : Type) : Type where
  | ok (val : A)
  | exn
  deriving DecidableEq

/-- Python str.endswith, on the character lists of the strings. -/
def pyEndsWith (s suffix : String) : Bool :=
  suffix.data.isSuffixOf s.data

/-- One iteration of the decoding loop of format_metadata, for a field
whose value is present: keys marked with a star get their value decoded
(a decode failure caught inside decode_double displays the could-not-
decode marker, while a struct.error escaping decode_double propagates
out of format_metadata, modelled as the exception case); the Calibration
star key alone is divided by 1000 and suffixed with the unit label. -/
def formatField (key v : String) : PyResult String :=
  if pyEndsWith key "*" then
    match decode_double v with
    | DecodeOutcome.ok bits =>
      if key = "Calibration*" then
        PyResult.ok (pyFormatFixed6 (fpDiv1000 bits) ++ " um/pixel")
      else PyResult.ok (pyFormatFixed6 bits)
    | DecodeOutcome.caught => PyResult.ok "Could not decode"
    | DecodeOutcome.raises => PyResult.exn
  else PyResult.ok v

/-- The decoded_metadata construction of format_metadata: fields whose
value is None are skipped, the others are transformed by the decoding
step in order.  This is the payload returned for the dict output format
(the table format renders the same pairs line by line, and an empty
input record short-circuits to a no-metadata message before this loop). -/
def format_metadata_decoded :
    List (String × Option String) → PyResult (List (String × String))
  | [] => PyResult.ok []
  | kv :: rest =>
    match kv.2 with
    | none => format_metadata_decoded rest
    | some v =>
      match formatField kv.1 v with
      | PyResult.exn => PyResult.exn
      | PyResult.ok s =>
        match format_metadata_decoded rest with
        | PyResult.exn => PyResult.exn
        | PyResult.ok r => PyResult.ok ((kv.1, s) :: r)

/-- Is a byte a UTF-8 continuation byte? -/
def isCont (c : Fin 256) : Bool := 0x80 ≤ c.val && c.val ≤ 0xBF

/-- Strict UTF-8 decoding as performed by bytes.decode of Python for the
utf-8 codec: rejects truncated sequences, overlong encodings, surrogate
code points and code points beyond the Unicode range; returns the list
of decoded code points. -/
def utf8Decode : List (Fin 256) → Option (List ℕ)
  | [] => some []
  | b :: rest =>
    let v := b.val
    if v < 0x80 then (utf8Decode rest).map (fun l => v :: l)
    else if v < 0xC2 then none
    else if v ≤ 0xDF then
      match rest with
      | c :: r2 =>
        if isCont c then (utf8Decode r2).map (fun l => ((v - 0xC0) * 64 + (c.val - 0x80)) :: l)
        else none
      | [] => none
    else if v ≤ 0xEF then
      match rest with
      | c1 :: c2 :: r2 =>
        let lo1 := if v = 0xE0 then 0xA0 else 0x80
        let hi1 := if v = 0xED then 0x9F else 0xBF
        if lo1 ≤ c1.val && c1.val ≤ hi1 && isCont c2 then
          (utf8Decode r2).map
            (fun l => ((v - 0xE0) * 4096 + (c1.val - 0x80) * 64 + (c2.val - 0x80)) :: l)
        else none
      | _ => none
    else if v ≤ 0xF4 then
      match rest with
      | c1 :: c2 :: c3 :: r2 =>
        let lo1 := if v = 0xF0 then 0x90 else 0x80
        let hi1 := if v = 0xF4 then 0x8F else 0xBF
        if lo1 ≤ c1.val && c1.val ≤ hi1 && isCont c2 && isCont c3 then
          (utf8Decode r2).map
            (fun l =>
              ((v - 0xF0) * 262144 + (c1.val - 0x80) * 4096 + (c2.val - 0x80) * 64 +
                (c3.val - 0x80)) :: l)
        else none
      | _ => none
    else none

/-- Latin-1 decoding: every byte maps to the code point of the same
value, so this codec accepts every byte sequence. -/
def latin1Decode (bs : List (Fin 256)) : Option (List ℕ) :=
  some (bs.map Fin.val)

/-- ASCII decoding: bytes below 128 only. -/
def asciiDecode : List (Fin 256) → Option (List ℕ)
  | [] => some []
  | b :: rest => if b.val < 128 then (asciiDecode rest).map (fun l => b.val :: l) else none

/-- Try a list of codecs in order, returning the index of the first
codec that decodes without error together with its output. -/
def tryEncodings :
    List (List (Fin 256) → Option (List ℕ)) → List (Fin 256) → Option (ℕ × List ℕ)
  | [], _ => none
  | d :: ds, bs =>
    match d bs with
    | some t => some (0, t)
    | none => (tryEncodings ds bs).map (fun p => (p.1 + 1, p.2))

/-- The encoding-resolution loop of read_tiff_content: try utf-8, then
latin-1, then ascii on the raw bytes; the branch after the loop raises
when every codec failed (modelled by the none result). -/
def read_tiff_content_decode (bs : List (Fin 256)) : Option (ℕ × List ℕ) :=
  tryEncodings [utf8Decode, latin1Decode, asciiDecode] bs

/-- The keys inserted for the Image section, in insertion order. -/
def imageKeyList : List String :=
  ["Comment", "OriginalImageSize_Width", "OriginalImageSize_Height",
   "SavingImageSize_Width", "SavingImageSize_Height", "DigitalZoom",
   "Calibration*", "Focus*", "PatchNumber"]

/-- The keys inserted for the Lens section, in insertion order. -/
def lensKeyList : List String :=
  ["LensName", "Magnification", "NumericalAperture*", "WorkingDistance*",
   "LiquidImmersion", "RevolverPosition"]

/-- The keys inserted for the Shooting section, in insertion order. -/
def shootingKeyList : List String :=
  ["StageLocationX", "StageLocationY", "StageLocationZ", "Channel", "Observation",
   "PseudoColor", "Binning", "ExposureTime_Numerator", "ExposureTime_Denominator",
   "PixelMode", "CameraGain", "CameraHardwareGain"]

/-- The hypothesis of the wrapped-field claim, decidably: either the
section text has no Parameter block at all, or the opening marker of the
field's tag does not occur inside the Parameter block that the wrapper
search finds, so the tag appears (if at all) only outside it. -/
def wrappedOnlyOutsideParameter (data tag : List Char) : Bool :=
  match reSearchSection ("Parameter".data) data with
  | none => true
  | some inner => !(containsSub (openMarker tag) inner)

/-- The minimal synthetic document of the end-to-end property. -/
def calibrationDoc : String :=
  "<Data><Image Type=\"a\"><Calibration Type=\"b\">4660518447848644499</Calibration></Image></Data>"

/-- A successful anchored opening-tag match means the opening marker
(bracket, tag name, space) starts the text at that position. -/
theorem openTagAt_some_marker {tag t : List Char} {r : List Char}
    (h : openTagAt tag t = some r) : (openMarker tag).isPrefixOf t = true := by
  by_cases hp : (openMarker tag).isPrefixOf t = true
  · exact hp
  · rw [openTagAt, if_neg hp] at h
    cases h

/-- A successful anchored direct-value match starts with the opening
marker. -/
theorem directAt_some_marker {tag t : List Char} {r : List Char}
    (h : directAt tag t = some r) : (openMarker tag).isPrefixOf t = true := by
  cases ho : openTagAt tag t with
  | none => rw [directAt, ho] at h; cases h
  | some r2 => exact openTagAt_some_marker ho

/-- A successful anchored section match starts with the opening marker. -/
theorem sectionAt_some_marker {tag t : List Char} {r : List Char}
    (h : sectionAt tag t = some r) : (openMarker tag).isPrefixOf t = true := by
  cases ho : openTagAt tag t with
  | none => rw [sectionAt, ho] at h; cases h
  | some r2 => exact openTagAt_some_marker ho

/-- A successful anchored nested-pair match starts with the opening
marker of the outer tag. -/
theorem pairAt_some_marker {tag sub t : List Char} {r : List Char}
    (h : pairAt tag sub t = some r) : (openMarker tag).isPrefixOf t = true := by
  cases ho : openTagAt tag t with
  | none => rw [pairAt, ho] at h; cases h
  | some r2 => exact openTagAt_some_marker ho

/-- When every successful anchored attempt needs a nonempty literal
prefix and that literal occurs nowhere in the text, the leftmost search
over all start positions finds nothing. -/
theorem reSearch_eq_none {α : Type} (att : List Char → Option α) (pre : List Char)
    (hne : pre ≠ [])
    (hatt : ∀ t r, att t = some r → pre.isPrefixOf t = true) :
    ∀ s, containsSub pre s = false → reSearch att s = none := by
  intro s
  induction s with
  | nil =>
    intro _
    cases ha : att [] with
    | none => rw [reSearch, ha]
    | some r =>
      have hp := hatt [] r ha
      cases pre with
      | nil => exact absurd rfl hne
      | cons p ps => simp [List.isPrefixOf] at hp
  | cons c rest ih =>
    intro h
    rw [containsSub, Bool.or_eq_false_iff] at h
    rw [reSearch]
    cases ha : att (c :: rest) with
    | none => exact ih h.2
    | some r =>
      have hp := hatt _ r ha
      rw [h.1] at hp
      cases hp

/-- C1.  The claim says decode_double returns the explicit failure value
for empty, non-numeric, negative, and too-large inputs, and that the
failure never propagates as an exception.  The code only bears this out
for the empty and non-numeric inputs, where int(value) raises ValueError
and the except clause returns None: for a negative integer literal or a
decimal of two to the sixty-fourth or more, int(value) succeeds and
struct.pack raises struct.error, which except (ValueError, TypeError)
does not catch, so decode_double raises and format_metadata aborts
instead of displaying the could-not-decode marker. -/
theorem decode_double_struct_error_escapes :
    decode_double "" = DecodeOutcome.caught ∧
    decode_double "abc" = DecodeOutcome.caught ∧
    decode_double "-1" = DecodeOutcome.raises ∧
    decode_double "18446744073709551616" = DecodeOutcome.raises ∧
    format_metadata_decoded [("Calibration*", some "-1")] = PyResult.exn ∧
    format_metadata_decoded [("Calibration*", some "")] =
      PyResult.ok [("Calibration*", "Could not decode")] := by
  refine ⟨by decide, by decide, by decide, by decide, by decide, by decide⟩

/-- C2.  decode_double reinterprets the 64-bit pattern of the parsed
integer as an IEEE-754 binary64 float, a bit-cast: the input string
4607182418800017408 parses and unpacks to the float whose bit pattern is
that same integer, the exact rational value of that pattern is 1 (not
four point six times ten to the eighteenth), and the fixed six-decimal
rendering of the field is 1.000000. -/
theorem decode_double_bitcast_one :
    decode_double "4607182418800017408" = DecodeOutcome.ok 4607182418800017408 ∧
    floatValQ 4607182418800017408 = some 1 ∧
    pyFormatFixed6 4607182418800017408 = "1.000000" := by
  refine ⟨by decide, ?_, by decide⟩
  have he : f64Exp 4607182418800017408 = 1023 := by decide
  have hf : f64Frac 4607182418800017408 = 0 := by decide
  have hs : f64Sign 4607182418800017408 = 0 := by decide
  simp only [floatValQ, f64Mant, f64Exp2, he, hf, hs]
  norm_num

/-- C3.  For every unsigned 64-bit integer N, decoding N through the
integer-input decode_double succeeds and produces the float whose bit
pattern is N, and packing that float's sign, exponent and fraction
fields back into eight bytes returns exactly N: the bit-cast
round-trips. -/
theorem decode_double_bits_roundtrip (N : ℕ) (h : N < 2 ^ 64) :
    DecodeCalibrationScale.decode_double (N : ℤ) = DecodeOutcome.ok N ∧
    packBits (unpackBits N) = N := by
  constructor
  · rw [DecodeCalibrationScale.decode_double,
      if_pos ⟨Int.natCast_nonneg N, by exact_mod_cast h⟩]
    simp
  · simp only [packBits, unpackBits, f64Sign, f64Exp, f64Frac]
    norm_num
    omega

/-- Witness for C3 at the calibration probe value of the repository. -/
theorem decode_double_bits_roundtrip_witness :
    DecodeCalibrationScale.decode_double ((4660518447848644499 : ℕ) : ℤ) =
      DecodeOutcome.ok 4660518447848644499 ∧
    packBits (unpackBits 4660518447848644499) = 4660518447848644499 :=
  decode_double_bits_roundtrip 4660518447848644499 (by norm_num)

/-- C5.  End-to-end on the minimal synthetic document: the extractor
finds the Calibration value inside the Image section of the data block,
and the formatter decodes it, divides the double by 1000, and renders it
with six decimal places and the unit suffix. -/
theorem parse_format_end_to_end_calibration :
    ("Calibration*", some "4660518447848644499") ∈ parse_metadata calibrationDoc ∧
    format_metadata_decoded (parse_metadata calibrationDoc) =
      PyResult.ok [("Calibration*",
        pyFormatFixed6 (fpDiv1000 4660518447848644499) ++ " um/pixel")] ∧
    pyFormatFixed6 (fpDiv1000 4660518447848644499) = "3.774418" := by
  refine ⟨by decide, by decide, by decide⟩

/-- C6.  parse_metadata is a total function of the content (malformed
markup degrades to absent fields rather than raising), and when the
data-block pattern finds no match the result is the empty record. -/
theorem parse_metadata_no_data_block (content : String)
    (h : reSearchData content.data = none) : parse_metadata content = [] := by
  rw [parse_metadata, h]

/-- Witness for C6 on an input with no data block. -/
theorem parse_metadata_no_data_block_witness :
    reSearchData ("<Image a>1</Image> plain text".data) = none ∧
    parse_metadata "<Image a>1</Image> plain text" = [] :=
  ⟨by decide, parse_metadata_no_data_block _ (by decide)⟩

/-- C9.  The latin-1 codec maps every byte to the code point of its
value, so the second attempt of the encoding loop always succeeds: for
every byte sequence, read_tiff_content decodes with the first codec or
with latin-1, and the ascii attempt and the raise after the loop are
unreachable. -/
theorem read_tiff_content_latin1_total (bs : List (Fin 256)) :
    (∃ t, read_tiff_content_decode bs = some (0, t)) ∨
    read_tiff_content_decode bs = some (1, bs.map Fin.val) := by
  cases h : utf8Decode bs with
  | some t =>
    exact Or.inl ⟨t, by rw [read_tiff_content_decode, tryEncodings, h]⟩
  | none =>
    refine Or.inr ?_
    rw [read_tiff_content_decode, tryEncodings, h, tryEncodings]
    rfl

/-- C10.  Every opening-tag pattern of the source requires a space after
the tag name, so a text in which the opening marker (bracket, tag name,
space) never occurs gives no match: the direct-value search, the
nested-pair search for any subtag, and the section search (which also
covers the Image, Lens, Shooting and Parameter tags) all fail, even when
a matching closing tag is present. -/
theorem open_tag_requires_space (s tag : List Char)
    (h : containsSub (openMarker tag) s = false) :
    reSearchDirect tag s = none ∧ (∀ sub, reSearchPair tag sub s = none) ∧
    reSearchSection tag s = none := by
  refine ⟨?_, fun sub => ?_, ?_⟩
  · exact reSearch_eq_none _ _ (by simp [openMarker])
      (fun t r ha => directAt_some_marker ha) s h
  · exact reSearch_eq_none _ _ (by simp [openMarker])
      (fun t r ha => pairAt_some_marker ha) s h
  · exact reSearch_eq_none _ _ (by simp [openMarker])
      (fun t r ha => sectionAt_some_marker ha) s h

/-- Witness for C10: the tag Calibration written with no character
between the name and the closing bracket, with a matching closing tag
present, is not found. -/
theorem open_tag_requires_space_witness :
    containsSub (openMarker "Calibration".data) ("<Calibration>5</Calibration>".data) = false ∧
    reSearchDirect ("Calibration".data) ("<Calibration>5</Calibration>".data) = none ∧
    reSearchSection ("Calibration".data) ("<Calibration>5</Calibration>".data) = none := by
  have h := open_tag_requires_space ("<Calibration>5</Calibration>".data)
    ("Calibration".data) (by decide)
  exact ⟨by decide, h.1, h.2.2⟩

/-- C8.  A field declared as wrapped in Parameter is extracted only from
inside the Parameter block of its section text: when the field's opening
marker occurs only outside any Parameter block (in particular when there
is no Parameter block at all), the extraction yields an absent value,
even when the tag name matches exactly. -/
theorem wrapped_field_requires_parameter_block (data tag : List Char)
    (h : wrappedOnlyOutsideParameter data tag = true) :
    extract_value data tag none (some ("Parameter".data)) = none := by
  rw [extract_value]
  cases hp : reSearchSection ("Parameter".data) data with
  | none => rfl
  | some inner =>
    rw [wrappedOnlyOutsideParameter, hp, Bool.not_eq_true'] at h
    simp only [extractCore]
    have : reSearchDirect tag inner = none :=
      reSearch_eq_none _ _ (by simp [openMarker])
        (fun t r ha => directAt_some_marker ha) inner h
    rw [this]
    rfl

/-- Witness for C8: a PseudoColor element outside the Parameter block of
its section is not extracted. -/
theorem wrapped_field_requires_parameter_block_witness :
    wrappedOnlyOutsideParameter
      ("<Parameter a>1</Parameter><PseudoColor a>Red</PseudoColor>".data)
      ("PseudoColor".data) = true ∧
    extract_value ("<Parameter a>1</Parameter><PseudoColor a>Red</PseudoColor>".data)
      ("PseudoColor".data) none (some ("Parameter".data)) = none :=
  ⟨by decide, wrapped_field_requires_parameter_block _ _ (by decide)⟩

/-- Counterexample to C7 as stated: on an input whose data block holds a
Lens section but no Image section, the returned record carries the Lens
keys yet contains no key at all for the Image field Comment — a missing
section leaves its keys out of the record instead of mapping them to the
explicit no-value marker. -/
theorem parse_metadata_missing_section_keys_omitted :
    "LensName" ∈ (parse_metadata "<Data><Lens a>x</Lens></Data>").map Prod.fst ∧
    "Comment" ∉ (parse_metadata "<Data><Lens a>x</Lens></Data>").map Prod.fst := by
  refine ⟨by decide, by decide⟩

/-- C7 as amended.  The keys of the returned record are fully determined
by which of the data block and the three section patterns match: each
found section contributes exactly its declared keys in declaration
order (fields absent inside a found section still get their key, bound
to the no-value marker by extract_value), while a missing section — or a
missing data block — contributes no keys at all. -/
theorem parse_metadata_keys_characterization (content : String) :
    (parse_metadata content).map Prod.fst =
      match reSearchData content.data with
      | none => []
      | some d =>
        (if (reSearchSection ("Image".data) d).isSome then imageKeyList else []) ++
        (if (reSearchSection ("Lens".data) d).isSome then lensKeyList else []) ++
        (if (reSearchSection ("Shooting".data) d).isSome then shootingKeyList else []) := by
  cases hd : reSearchData content.data with
  | none => rw [parse_metadata, hd]; rfl
  | some d =>
    rw [parse_metadata, hd]
    simp only [List.map_append]
    have h1 : (imageFields d).map Prod.fst =
        (if (reSearchSection ("Image".data) d).isSome then imageKeyList else []) := by
      cases hs : reSearchSection ("Image".data) d with
      | none => rw [imageFields, hs]; rfl
      | some img => rw [imageFields, hs]; rfl
    have h2 : (lensFields d).map Prod.fst =
        (if (reSearchSection ("Lens".data) d).isSome then lensKeyList else []) := by
      cases hs : reSearchSection ("Lens".data) d with
      | none => rw [lensFields, hs]; rfl
      | some lens => rw [lensFields, hs]; rfl
    have h3 : (shootingFields d).map Prod.fst =
        (if (reSearchSection ("Shooting".data) d).isSome then shootingKeyList else []) := by
      cases hs : reSearchSection ("Shooting".data) d with
      | none => rw [shootingFields, hs]; rfl
      | some sh => rw [shootingFields, hs]; rfl
    rw [h1, h2, h3]

/-- C4.  In the decoding loop, exactly the field keyed with the literal
Calibration star key has its decoded double divided by 1000 and rendered
with six decimals plus the unit suffix; every other star-marked field is
rendered as the plain decoded magnitude with six decimals and no suffix,
and unmarked fields pass through unchanged. -/
theorem format_metadata_calibration_scaling
    (md : List (String × Option String)) (out : List (String × String))
    (key v : String) (bits : ℕ)
    (hfmt : format_metadata_decoded md = PyResult.ok out)
    (hmem : (key, some v) ∈ md)
    (hdec : decode_double v = DecodeOutcome.ok bits) :
    (key, if key = "Calibration*" then pyFormatFixed6 (fpDiv1000 bits) ++ " um/pixel"
          else if pyEndsWith key "*" = true then pyFormatFixed6 bits
          else v) ∈ out := by
  induction md generalizing out with
  | nil => cases hmem
  | cons hd rest ih =>
    rw [format_metadata_decoded] at hfmt
    rcases List.mem_cons.mp hmem with heq | hmem2
    · have hfst : hd.1 = key := by rw [← heq]
      have hsnd : hd.2 = some v := by rw [← heq]
      rw [hsnd] at hfmt
      simp only at hfmt
      have hff : formatField hd.1 v =
          PyResult.ok (if key = "Calibration*" then
              pyFormatFixed6 (fpDiv1000 bits) ++ " um/pixel"
            else if pyEndsWith key "*" = true then pyFormatFixed6 bits
            else v) := by
        rw [formatField, hfst, hdec]
        by_cases hcal : key = "Calibration*"
        · have hsw : pyEndsWith key "*" = true := by rw [hcal]; decide
          rw [if_pos hsw]
          dsimp only
          rw [if_pos hcal, if_pos hcal]
        · by_cases hstar : pyEndsWith key "*" = true
          · rw [if_pos hstar]
            dsimp only
            rw [if_neg hcal, if_neg hcal, if_pos hstar]
          · rw [if_neg hstar, if_neg hcal, if_neg hstar]
      rw [hff] at hfmt
      cases hrest : format_metadata_decoded rest with
      | exn => rw [hrest] at hfmt; cases hfmt
      | ok r =>
        rw [hrest] at hfmt
        cases hfmt
        rw [← hfst]
        exact List.mem_cons_self _ _
    · cases hov : hd.2 with
      | none =>
        rw [hov] at hfmt
        simp only at hfmt
        exact ih out hfmt hmem2
      | some w =>
        rw [hov] at hfmt
        simp only at hfmt
        cases hff : formatField hd.1 w with
        | exn => rw [hff] at hfmt; cases hfmt
        | ok s =>
          rw [hff] at hfmt
          cases hrest : format_metadata_decoded rest with
          | exn => rw [hrest] at hfmt; cases hfmt
          | ok r =>
            rw [hrest] at hfmt
            cases hfmt
            exact List.mem_cons_of_mem _ (ih r hrest hmem2)

/-- Witness for C4: a record with the Calibration star key and another
star key holding the bit pattern of one; the former is scaled by 1000
and suffixed, the latter rendered plainly. -/
theorem format_metadata_calibration_scaling_witness :
    ("Calibration*", "0.001000 um/pixel") ∈
      [("Calibration*", "0.001000 um/pixel"), ("Focus*", "1.000000")] ∧
    ("Focus*", "1.000000") ∈
      [("Calibration*", "0.001000 um/pixel"), ("Focus*", "1.000000")] := by
  constructor
  · have h := format_metadata_calibration_scaling
      [("Calibration*", some "4607182418800017408"), ("Focus*", some "4607182418800017408")]
      [("Calibration*", "0.001000 um/pixel"), ("Focus*", "1.000000")]
      "Calibration*" "4607182418800017408" 4607182418800017408
      (by decide) (by decide) (by decide)
    rw [if_pos rfl] at h
    have hv : pyFormatFixed6 (fpDiv1000 4607182418800017408) ++ " um/pixel" =
        "0.001000 um/pixel" := by decide
    rw [hv] at h
    exact h
  · have h := format_metadata_calibration_scaling
      [("Calibration*", some "4607182418800017408"), ("Focus*", some "4607182418800017408")]
      [("Calibration*", "0.001000 um/pixel"), ("Focus*", "1.000000")]
      "Focus*" "4607182418800017408" 4607182418800017408
      (by decide) (by decide) (by decide)
    rw [if_neg (by decide), if_pos (by decide)] at h
    have hv : pyFormatFixed6 4607182418800017408 = "1.000000" := by decide
    rw [hv] at h
    exact h

end Keyence
